import Mathlib

/-!
Verification of the document data-extraction and generation-orchestration
core of the MGA document system, a shallow embedding of
`src/extractors/document_data_extractor.py` and
`src/generators/unified_generator.py`.

Python strings are modelled as `List Char`; Python regular-expression
searches used by the code are modelled by specialised backtracking
matchers for the exact patterns occurring in the source; `json.loads` is
modelled by an executable recursive-descent JSON parser (numeric literals
restricted to integers); external collaborators (the language model, the
file system, text-extraction backends) are parameters.
-/

/-- Python strings modelled as lists of characters. -/
abbrev PyStr := List Char

/-- Shorthand: a Lean string literal as a `PyStr`. -/
def pys (s : String) : PyStr := s.toList

/-- Python / `re` whitespace (`\s`, `str.strip`): the ASCII whitespace
characters.  (Non-ASCII Unicode whitespace is not modelled.) -/
def pyIsSpace (c : Char) : Bool :=
  c = ' ' ∨ c = '\t' ∨ c = '\n' ∨ c = '\r' ∨ c = '\x0b' ∨ c = '\x0c'

/-- `str.lower` on one character: ASCII `A`–`Z` and the Latin-1 uppercase
letters `À`–`Þ` (except `×`) map down by 32; everything else is fixed.
This covers the Spanish text the system processes. -/
def pyLowerChar (c : Char) : Char :=
  if 65 ≤ c.toNat ∧ c.toNat ≤ 90 then Char.ofNat (c.toNat + 32)
  else if 192 ≤ c.toNat ∧ c.toNat ≤ 222 ∧ c.toNat ≠ 215 then Char.ofNat (c.toNat + 32)
  else c

/-- `str.lower`. -/
def pyLower (s : PyStr) : PyStr := s.map pyLowerChar

/-- `str.strip()`: remove whitespace from both ends. -/
def pyStrip (s : PyStr) : PyStr :=
  (s.dropWhile pyIsSpace).reverse.dropWhile pyIsSpace |>.reverse

/-! ## The pattern matcher of `_extract_with_patterns`

The source searches `text_lower` with the pattern
`rf'{keyword}\s*[:\-]?\s*(.+?)(?:\n|$)'` (``re.search``, `re.IGNORECASE`;
the subject is already lower-cased, and every keyword in the tables is
lower-case, so the flag has no further effect).  The functions below
implement exactly Python's leftmost-first backtracking semantics for this
pattern shape and return the content of capture group 1. -/

/-- `(.+?)(?:\n|$)` at the start of `cs`: the lazy capture succeeds iff the
first character exists and is not a newline, and then captures up to (not
including) the next newline or the end of the subject. -/
def lazyRestOfLine (cs : PyStr) : Option PyStr :=
  match cs with
  | [] => none
  | c :: _ => if c = '\n' then none else some (cs.takeWhile (fun d => d ≠ '\n'))

/-- Greedy `\s*` directly in front of `(.+?)(?:\n|$)`: try consuming `k`
whitespace characters, backtracking from `k` down to `0`. -/
def wsBack (cs : PyStr) : Nat → Option PyStr
  | 0 => lazyRestOfLine cs
  | k + 1 =>
    match lazyRestOfLine (cs.drop (k + 1)) with
    | some g => some g
    | none => wsBack cs k

/-- `\s*(.+?)(?:\n|$)` with the greedy star tried longest-first. -/
def wsStarThenRest (cs : PyStr) : Option PyStr :=
  wsBack cs (cs.takeWhile pyIsSpace).length

/-- `[:\-]?\s*(.+?)(?:\n|$)`: the optional separator prefers to consume. -/
def sepBranch (cs : PyStr) : Option PyStr :=
  match cs with
  | [] => none
  | c :: rest =>
    if c = ':' ∨ c = '-' then
      match wsStarThenRest rest with
      | some g => some g
      | none => wsStarThenRest cs
    else wsStarThenRest cs

/-- Outer greedy `\s*` before the optional separator, longest-first. -/
def outerWsBack (cs : PyStr) : Nat → Option PyStr
  | 0 => sepBranch cs
  | k + 1 =>
    match sepBranch (cs.drop (k + 1)) with
    | some g => some g
    | none => outerWsBack cs k

/-- The whole tail `\s*[:\-]?\s*(.+?)(?:\n|$)` anchored at the start of
`cs`. -/
def matchTail (cs : PyStr) : Option PyStr :=
  outerWsBack cs (cs.takeWhile pyIsSpace).length

/-- `re.search(rf'{kw}\s*[:\-]?\s*(.+?)(?:\n|$)', text)`: scan start
positions left to right; at each position the literal keyword must match,
then the tail; return group 1 of the first full match. -/
def reSearchKw (kw : PyStr) (text : PyStr) : Option PyStr :=
  match text with
  | [] => if kw = [] then matchTail [] else none
  | _ :: rest =>
    if kw.isPrefixOf text then
      match matchTail (text.drop kw.length) with
      | some g => some g
      | none => reSearchKw kw rest
    else reSearchKw kw rest

/-- The cleanup applied to a captured value:
`value = match.group(1).strip()` followed by
`value = re.sub(r'^[:\-\s]+', '', value)`. -/
def cleanCapture (g : PyStr) : PyStr :=
  (pyStrip g).dropWhile (fun c => c = ':' ∨ c = '-' ∨ pyIsSpace c)

/-- The inner keyword loop of `_extract_with_patterns`: try the keywords in
declaration order, and on the first one whose (cleaned) captured value is
non-empty and longer than one character, store `value[:500]` and break. -/
def tryKeywords (keywords : List PyStr) (textLower : PyStr) : Option PyStr :=
  match keywords with
  | [] => none
  | kw :: rest =>
    match reSearchKw kw textLower with
    | some g =>
      if cleanCapture g ≠ [] ∧ 1 < (cleanCapture g).length then some ((cleanCapture g).take 500)
      else tryKeywords rest textLower
    | none => tryKeywords rest textLower

/-! ## The `FIELD_MAPPINGS` table -/

/-- `FIELD_MAPPINGS["estudios_previos"]`. -/
def mappingsEstudiosPrevios : List (PyStr × List PyStr) :=
  [ (pys "entidad", [pys "entidad", pys "entidad contratante", pys "institution"]),
    (pys "objeto", [pys "objeto", pys "objeto contractual", pys "objeto del contrato"]),
    (pys "presupuesto", [pys "presupuesto", pys "valor", pys "monto", pys "valor estimado"]),
    (pys "plazo", [pys "plazo", pys "duración", pys "tiempo de ejecución"]),
    (pys "modalidad", [pys "modalidad", pys "modalidad de selección"]),
    (pys "sector", [pys "sector", pys "área"]),
    (pys "descripcion", [pys "descripción", pys "justificación", pys "necesidad"]) ]

/-- `FIELD_MAPPINGS["analisis_sector"]`. -/
def mappingsAnalisisSector : List (PyStr × List PyStr) :=
  [ (pys "sector", [pys "sector", pys "sector económico"]),
    (pys "entidad", [pys "entidad", pys "entidad contratante"]),
    (pys "objeto", [pys "objeto", pys "objeto a contratar"]),
    (pys "valor_estimado", [pys "valor", pys "presupuesto", pys "valor estimado"]) ]

/-- `FIELD_MAPPINGS["dts"]`. -/
def mappingsDts : List (PyStr × List PyStr) :=
  [ (pys "municipio", [pys "municipio", pys "ciudad"]),
    (pys "departamento", [pys "departamento"]),
    (pys "entidad", [pys "entidad"]),
    (pys "proyecto", [pys "proyecto", pys "nombre del proyecto"]),
    (pys "valor", [pys "valor", pys "presupuesto", pys "costo total"]) ]

/-- `FIELD_MAPPINGS["certificaciones"]`. -/
def mappingsCertificaciones : List (PyStr × List PyStr) :=
  [ (pys "nombre_proyecto", [pys "proyecto", pys "nombre del proyecto"]),
    (pys "municipio", [pys "municipio"]),
    (pys "departamento", [pys "departamento"]),
    (pys "valor", [pys "valor", pys "presupuesto"]),
    (pys "responsable", [pys "responsable", pys "formulador", pys "secretario"]) ]

/-- `FIELD_MAPPINGS["mga_subsidios"]`. -/
def mappingsMgaSubsidios : List (PyStr × List PyStr) :=
  [ (pys "municipio", [pys "municipio", pys "ciudad"]),
    (pys "departamento", [pys "departamento"]),
    (pys "entidad", [pys "entidad", pys "alcaldía"]),
    (pys "bpin", [pys "bpin", pys "código bpin"]),
    (pys "nombre_proyecto", [pys "proyecto", pys "nombre del proyecto", pys "título"]),
    (pys "valor_total", [pys "valor", pys "valor total", pys "presupuesto", pys "monto"]),
    (pys "duracion", [pys "duración", pys "plazo", pys "días"]),
    (pys "responsable", [pys "responsable", pys "formulador", pys "secretario"]),
    (pys "cargo", [pys "cargo", pys "puesto"]),
    (pys "plan_nacional", [pys "plan nacional", pys "pnd"]),
    (pys "plan_departamental", [pys "plan departamental"]),
    (pys "plan_municipal", [pys "plan municipal", pys "pdm"]) ]

/-- `FIELD_MAPPINGS.get(doc_type, {})`. -/
def fieldMappingsGet (docType : PyStr) : List (PyStr × List PyStr) :=
  if docType = pys "estudios_previos" then mappingsEstudiosPrevios
  else if docType = pys "analisis_sector" then mappingsAnalisisSector
  else if docType = pys "dts" then mappingsDts
  else if docType = pys "certificaciones" then mappingsCertificaciones
  else if docType = pys "mga_subsidios" then mappingsMgaSubsidios
  else []

/-- `result[field_name] = value` on a Python dict modelled as an ordered
association list: replace in place if the key is present, else append. -/
def dictInsert {α : Type} (d : List (PyStr × α)) (k : PyStr) (v : α) :
    List (PyStr × α) :=
  match d with
  | [] => [(k, v)]
  | (k', v') :: rest =>
    if k' = k then (k', v) :: rest else (k', v') :: dictInsert rest k v

/-- Python dict key lookup (keys are unique in a dict, so the first hit). -/
def dictGet {α : Type} (d : List (PyStr × α)) (k : PyStr) : Option α :=
  match d with
  | [] => none
  | (k', v') :: rest => if k' = k then some v' else dictGet rest k

/-- The body of the outer field loop of `_extract_with_patterns`: store
the field's first valid captured value, if any. -/
def patternsStep (textLower : PyStr) (result : List (PyStr × PyStr))
    (fk : PyStr × List PyStr) : List (PyStr × PyStr) :=
  match tryKeywords fk.2 textLower with
  | some v => dictInsert result fk.1 v
  | none => result

/-- `DocumentDataExtractor._extract_with_patterns`. -/
def extract_with_patterns (text docType : PyStr) : List (PyStr × PyStr) :=
  (fieldMappingsGet docType).foldl (patternsStep (pyLower text)) []

/-! ## JSON values and `json.loads`

`json.loads` is modelled by an executable strict recursive-descent parser.
Numeric literals are modelled as integers (the documents' JSON payloads
use integer and string values); a literal with a fraction or exponent
part is rejected by the model.  `\uXXXX` escapes outside the valid scalar
range decode to `'\x00'`. -/

/-- Parsed JSON values.  Objects are ordered key/value lists as produced
by Python's dict (insertion order, duplicate keys collapsed, last value
wins). -/
inductive Json where
  | null : Json
  | bool : Bool → Json
  | num : Int → Json
  | str : PyStr → Json
  | arr : List Json → Json
  | obj : List (PyStr × Json) → Json

/-- JSON inter-token whitespace. -/
def jsonIsWs (c : Char) : Bool := c = ' ' ∨ c = '\t' ∨ c = '\n' ∨ c = '\r'

/-- Skip JSON whitespace. -/
def jsonSkipWs (cs : PyStr) : PyStr := cs.dropWhile jsonIsWs

/-- Decode one string-literal escape character (the character after the
backslash, `\uXXXX` handled separately). -/
def jsonEscChar (c : Char) : Option Char :=
  if c = '"' then some '"'
  else if c = '\\' then some '\\'
  else if c = '/' then some '/'
  else if c = 'b' then some '\x08'
  else if c = 'f' then some '\x0c'
  else if c = 'n' then some '\n'
  else if c = 'r' then some '\r'
  else if c = 't' then some '\t'
  else none

/-- Hex digit value. -/
def hexVal (c : Char) : Option Nat :=
  if '0' ≤ c ∧ c ≤ '9' then some (c.toNat - 48)
  else if 'a' ≤ c ∧ c ≤ 'f' then some (c.toNat - 87)
  else if 'A' ≤ c ∧ c ≤ 'F' then some (c.toNat - 55)
  else none

/-- Parse the body of a JSON string literal (after the opening quote),
returning the decoded string and the remaining input. -/
def parseStrBody : PyStr → PyStr → Option (PyStr × PyStr)
  | _, [] => none
  | acc, c :: rest =>
    if c = '"' then some (acc.reverse, rest)
    else if c = '\\' then
      match rest with
      | [] => none
      | e :: rest' =>
        if e = 'u' then
          match rest' with
          | h1 :: h2 :: h3 :: h4 :: rest'' =>
            match hexVal h1, hexVal h2, hexVal h3, hexVal h4 with
            | some a, some b, some c', some d =>
              parseStrBody (Char.ofNat (((a * 16 + b) * 16 + c') * 16 + d) :: acc) rest''
            | _, _, _, _ => none
          | _ => none
        else
          match jsonEscChar e with
          | some d => parseStrBody (d :: acc) rest'
          | none => none
    else if c.toNat < 32 then none
    else parseStrBody (c :: acc) rest

/-- Parse a strict JSON integer literal: `-?(0|[1-9][0-9]*)`, rejecting a
following `.`/`e`/`E` (fractions and exponents are outside the model). -/
def parseIntLit (cs : PyStr) : Option (Int × PyStr) :=
  let (neg, cs') := match cs with
    | '-' :: rest => (true, rest)
    | _ => (false, cs)
  match cs' with
  | [] => none
  | c :: _ =>
    if ¬ c.isDigit then none
    else
      let digits := cs'.takeWhile Char.isDigit
      let rest := cs'.dropWhile Char.isDigit
      if digits.length > 1 ∧ c = '0' then none
      else
        match rest with
        | '.' :: _ => none
        | 'e' :: _ => none
        | 'E' :: _ => none
        | _ =>
          let n : Nat := digits.foldl (fun acc d => acc * 10 + (d.toNat - 48)) 0
          some (if neg then -(n : Int) else (n : Int), rest)

mutual

/-- Parse one JSON value (leading whitespace allowed), returning the value
and the remaining input.  `fuel` bounds the recursion; the top-level entry
point supplies enough for any input. -/
def parseVal : Nat → PyStr → Option (Json × PyStr)
  | 0, _ => none
  | fuel + 1, cs =>
    match jsonSkipWs cs with
    | [] => none
    | c :: rest =>
      if c = 'n' then
        match rest with
        | 'u' :: 'l' :: 'l' :: rest' => some (Json.null, rest')
        | _ => none
      else if c = 't' then
        match rest with
        | 'r' :: 'u' :: 'e' :: rest' => some (Json.bool true, rest')
        | _ => none
      else if c = 'f' then
        match rest with
        | 'a' :: 'l' :: 's' :: 'e' :: rest' => some (Json.bool false, rest')
        | _ => none
      else if c = '"' then
        match parseStrBody [] rest with
        | some (s, rest') => some (Json.str s, rest')
        | none => none
      else if c = '\x7b' then
        match jsonSkipWs rest with
        | '\x7d' :: rest' => some (Json.obj [], rest')
        | rest' => parseMembers fuel rest' []
      else if c = '[' then
        match jsonSkipWs rest with
        | ']' :: rest' => some (Json.arr [], rest')
        | rest' => parseItems fuel rest' []
      else
        match parseIntLit (c :: rest) with
        | some (n, rest') => some (Json.num n, rest')
        | none => none

/-- Parse the members of a JSON object (positioned at a key), accumulating
into a Python dict (duplicate keys overwrite in place). -/
def parseMembers : Nat → PyStr → List (PyStr × Json) → Option (Json × PyStr)
  | 0, _, _ => none
  | fuel + 1, cs, d =>
    match jsonSkipWs cs with
    | '"' :: rest =>
      match parseStrBody [] rest with
      | some (k, rest') =>
        match jsonSkipWs rest' with
        | ':' :: rest'' =>
          match parseVal fuel rest'' with
          | some (v, rest''') =>
            let d' := dictInsert d k v
            match jsonSkipWs rest''' with
            | ',' :: rest4 => parseMembers fuel rest4 d'
            | '\x7d' :: rest4 => some (Json.obj d', rest4)
            | _ => none
          | none => none
        | _ => none
      | none => none
    | _ => none

/-- Parse the items of a JSON array (positioned at a value). -/
def parseItems : Nat → PyStr → List Json → Option (Json × PyStr)
  | 0, _, _ => none
  | fuel + 1, cs, items =>
    match parseVal fuel cs with
    | some (v, rest) =>
      match jsonSkipWs rest with
      | ',' :: rest' => parseItems fuel rest' (items ++ [v])
      | ']' :: rest' => some (Json.arr (items ++ [v]), rest')
      | _ => none
    | none => none

end

/-- `json.loads`: parse one JSON document; trailing content other than
whitespace is an error. -/
def jsonLoads (cs : PyStr) : Option Json :=
  match parseVal (cs.length + 1) cs with
  | some (j, rest) => if jsonSkipWs rest = [] then some j else none
  | none => none

/-! ## The value filter applied to a parsed AI response -/

/-- Python truthiness of a parsed JSON value
(`None`, `False`, `0`, `""`, `[]` and an empty dict are falsy). -/
def pyTruthy : Json → Bool
  | .null => false
  | .bool b => b
  | .num n => n ≠ 0
  | .str s => s ≠ []
  | .arr l => !l.isEmpty
  | .obj d => !d.isEmpty

/-- Python `v == "null"`: true exactly when `v` is the string `"null"`
(values of other types never compare equal to a string). -/
def isNullLiteral : Json → Bool
  | .str s => s = pys "null"
  | _ => false

/-- Python `repr` of a parsed JSON value (string quoting is modelled
without escape re-encoding; only used through `str(v).strip()`). -/
def pyReprJson : Json → PyStr
  | .null => pys "None"
  | .bool true => pys "True"
  | .bool false => pys "False"
  | .num n => (toString n).toList
  | .str s => '\'' :: (s ++ ['\''])
  | .arr l => '[' :: (List.intercalate (pys ", ") (l.attach.map (fun x => pyReprJson x.1)) ++ [']'])
  | .obj d => '\x7b' :: (List.intercalate (pys ", ")
      (d.attach.map (fun kv => ('\'' :: (kv.1.1 ++ ['\''])) ++ pys ": " ++ pyReprJson kv.1.2)) ++ ['\x7d'])
decreasing_by
  · simp_wf
    have := List.sizeOf_lt_of_mem x.2
    omega
  · simp_wf
    have h1 := List.sizeOf_lt_of_mem kv.2
    have h2 : sizeOf kv.1.2 < sizeOf kv.1 := by
      obtain ⟨a, b⟩ := kv.1
      simp
    omega

/-- Python `str(v)` for a parsed JSON value. -/
def pyStrJson : Json → PyStr
  | .str s => s
  | v => pyReprJson v

/-- The dict comprehension
`{k: v for k, v in result.items() if v and v != "null" and str(v).strip()}`. -/
def filterExtracted (d : List (PyStr × Json)) : List (PyStr × Json) :=
  d.filter (fun kv => pyTruthy kv.2 && !isNullLiteral kv.2 && !(pyStrip (pyStrJson kv.2)).isEmpty)

/-! ## The three JSON-recovery patterns of `_extract_with_ai`

`json_patterns = [r'\{[\s\S]*\}', r'```json\s*([\s\S]*?)\s*```',
r'```\s*([\s\S]*?)\s*```']`, searched with `re.search(..., re.DOTALL)`.
The first pattern contributes `match.group(0)`, the fenced patterns
`match.group(1)`. -/

/-- `re.search(r'\{[\s\S]*\}', response)`: the span from the first `{`
that is followed by some `}` up to the last `}` of the subject. -/
def braceSpan : PyStr → Option PyStr
  | [] => none
  | c :: rest =>
    if c = '\x7b' ∧ rest.any (fun d => d = '\x7d') then
      some (c :: (rest.reverse.dropWhile (fun d => d ≠ '\x7d')).reverse)
    else braceSpan rest

/-- The closing part `\s*```` ``: some run of whitespace followed by the
closing fence, starting exactly here. -/
def closeFence (cs : PyStr) : Bool :=
  if (pys "```").isPrefixOf cs then true
  else
    match cs with
    | [] => false
    | c :: rest => if pyIsSpace c then closeFence rest else false

/-- The lazy group `([\s\S]*?)` followed by `\s*```` ``: shortest prefix
whose continuation closes the fence. -/
def lazyFencedGroup (acc : PyStr) (cs : PyStr) : Option PyStr :=
  if closeFence cs then some acc.reverse
  else
    match cs with
    | [] => none
    | c :: rest => lazyFencedGroup (c :: acc) rest

/-- Greedy `\s*` after the opening fence, longest-first with backtracking,
then the lazy group. -/
def fencedWsBack (cs : PyStr) : Nat → Option PyStr
  | 0 => lazyFencedGroup [] cs
  | k + 1 =>
    match lazyFencedGroup [] (cs.drop (k + 1)) with
    | some g => some g
    | none => fencedWsBack cs k

/-- Tail of a fenced pattern after its opening literal:
`\s*([\s\S]*?)\s*```` ``. -/
def fencedTail (cs : PyStr) : Option PyStr :=
  fencedWsBack cs (cs.takeWhile pyIsSpace).length

/-- `re.search` for an opening literal followed by `fencedTail`:
leftmost occurrence whose tail completes wins. -/
def searchFenced (openLit : PyStr) (cs : PyStr) : Option PyStr :=
  match cs with
  | [] => none
  | _ :: rest =>
    if openLit.isPrefixOf cs then
      match fencedTail (cs.drop openLit.length) with
      | some g => some g
      | none => searchFenced openLit rest
    else searchFenced openLit rest

/-- `r'```json\s*([\s\S]*?)\s*```'`, group 1. -/
def fencedJsonBlock (cs : PyStr) : Option PyStr := searchFenced (pys "```json") cs

/-- `r'```\s*([\s\S]*?)\s*```'`, group 1. -/
def fencedGenericBlock (cs : PyStr) : Option PyStr := searchFenced (pys "```") cs

/-- The `json_patterns` list in source order: brace-delimited span first,
then the fenced JSON block, then the generic fenced block; each entry
already yields the `json_str` the source feeds to `json.loads`. -/
def jsonPatterns : List (PyStr → Option PyStr) :=
  [braceSpan, fencedJsonBlock, fencedGenericBlock]

/-- Result of the response-parsing loop: a returned (filtered) field map;
an exception escaping the loop (`.items()` on a non-dict JSON document,
caught by the outer handler); or falling through all patterns.  The two
non-success cases both reach the pattern-extraction fallback. -/
inductive ParseOutcome where
  | success : List (PyStr × Json) → ParseOutcome
  | raised : ParseOutcome
  | fellThrough : ParseOutcome

/-- The `for pattern in json_patterns` loop: the first pattern that
matches and whose extracted span is valid JSON ends the loop — returning
the filtered dict if the document is an object, raising otherwise; a span
that fails to parse (`json.JSONDecodeError`) moves on to the next
pattern. -/
def runPatterns : List (PyStr → Option PyStr) → PyStr → ParseOutcome
  | [], _ => .fellThrough
  | p :: ps, response =>
    match p response with
    | none => runPatterns ps response
    | some jsonStr =>
      match jsonLoads jsonStr with
      | none => runPatterns ps response
      | some (Json.obj d) => .success (filterExtracted d)
      | some _ => .raised

/-- The parsing stage of `_extract_with_ai` applied to a model response. -/
def parseAIResponse (response : PyStr) : ParseOutcome :=
  runPatterns jsonPatterns response

/-! ## Prompt construction and sampling in `_extract_with_ai` -/

/-- The unified `all_fields` list. -/
def allFields : List PyStr :=
  [ pys "municipio", pys "departamento", pys "entidad", pys "bpin", pys "nombre_proyecto",
    pys "valor_total", pys "duracion", pys "responsable", pys "cargo", pys "alcalde",
    pys "objeto", pys "necesidad", pys "alcance", pys "modalidad", pys "fuente_financiacion",
    pys "sector", pys "codigo_ciiu", pys "codigos_unspsc", pys "programa", pys "subprograma",
    pys "plan_nacional", pys "plan_departamental", pys "plan_municipal",
    pys "poblacion_beneficiada", pys "indicador_producto", pys "meta_producto",
    pys "es_actualizacion" ]

/-- `fields_str = ", ".join(all_fields)`. -/
def fieldsStr : PyStr := List.intercalate (pys ", ") allFields

/-- The document-sampling step: text longer than 15000 characters is
reduced to beginning + a window around the midpoint + the end, joined
with section markers; shorter text is used whole. -/
def textToAnalyze (text : PyStr) : PyStr :=
  let textLength := text.length
  if textLength > 15000 then
    let beginning := text.take 6000
    let middleStart := max 0 (textLength / 2 - 3000)
    let middle := (text.drop middleStart).take 6000
    let endPart := text.drop (textLength - 3000)
    beginning ++ pys "\n\n[...SECCIÓN INTERMEDIA...]\n\n" ++ middle
      ++ pys "\n\n[...SECCIÓN FINAL...]\n\n" ++ endPart
  else text

/-- The optional `context_section` block of the human message. -/
def contextSection (userContext : PyStr) : PyStr :=
  if userContext ≠ [] then
    pys "\n\n===== CONTEXTO DEL USUARIO =====\n" ++ userContext
      ++ pys "\n===== FIN DEL CONTEXTO =====\n\nNOTA: El usuario ha proporcionado contexto adicional. Si indica que es una ACTUALIZACIÓN, \nagrega \"es_actualizacion\": \"Si\" al JSON. Prioriza la información según las instrucciones del usuario.\n"
  else []

/-- The human message of the extraction prompt. -/
def humanMessage (text userContext : PyStr) : PyStr :=
  pys "Extrae los siguientes campos del documento gubernamental colombiano:\n"
    ++ fieldsStr ++ contextSection userContext
    ++ pys "\n\n===== DOCUMENTO COMPLETO =====\n"
    ++ textToAnalyze text
    ++ pys "\n===== FIN DEL DOCUMENTO =====\n\nIMPORTANTE: Analiza tablas, encabezados, y texto en cualquier formato.\nResponde ÚNICAMENTE con un JSON válido. Ejemplo de formato:\nmunicipio: San Pablo\ndepartamento: Bolívar\nentidad: Alcaldía Municipal\nbpin: 2024000001234\nnombre_proyecto: Construcción de acueducto\nvalor_total: 500000000\nduracion: 180\nresponsable: Juan Pérez\ncargo: Secretario de Planeación\nobjeto: Contratar la construcción...\nnecesidad: Se requiere mejorar...\nsector: Agua Potable\nes_actualizacion: No\n\nResponde con JSON usando las claves anteriores."

/-- The system message of the extraction prompt. -/
def systemMessage : PyStr :=
  pys "Eres un experto en extracción de datos de documentos gubernamentales colombianos.\nTu especialidad es extraer información de:\n- Metodología General Ajustada (MGA)\n- Estudios Previos\n- Convenios Interadministrativos\n- Certificaciones municipales\n- Documentos Técnicos de Soporte (DTS)\n\nINSTRUCCIONES CRÍTICAS:\n1. Lee TODO el documento cuidadosamente\n2. Extrae TODOS los valores que encuentres, incluso si están en tablas o listas\n3. Para \"valor_total\" busca: presupuesto, valor del contrato, monto, costo total\n4. Para \"objeto\" busca: objeto contractual, objeto del convenio, descripción del proyecto\n5. Para \"necesidad\" busca: justificación, problema a resolver, antecedentes\n6. Para \"alcance\" busca: actividades, productos, entregables\n7. Para \"municipio\" y \"departamento\" busca: ubicación, localización geográfica\n8. Para \"responsable\" busca: secretario, formulador, representante legal\n9. Si no encuentras un campo exacto, busca sinónimos o información relacionada\n10. NO inventes datos. Si no está, omítelo del JSON.\n11. Responde SOLO con JSON válido, nada más."

/-- A model collaborator: maps the (system, human) message pair either to
a response string or to a raised exception (its message).  Prompt-template
placeholder expansion is not modelled (the templates contain no
placeholder braces). -/
abbrev ModelHandle := PyStr × PyStr → Except PyStr PyStr

/-- The pattern-extraction result viewed in the heterogeneous result type
of the AI path (each captured value is a Python string). -/
def extract_with_patterns_json (text docType : PyStr) : List (PyStr × Json) :=
  (extract_with_patterns text docType).map (fun kv => (kv.1, Json.str kv.2))

/-- `DocumentDataExtractor._extract_with_ai`: build the prompt, invoke the
model, parse its response, and on any failure — a raised model call, an
exception while parsing, or no pattern yielding valid JSON — fall back to
`_extract_with_patterns` on the same `(text, doc_type)`. -/
def extract_with_ai (llm : ModelHandle) (text docType userContext : PyStr) :
    List (PyStr × Json) :=
  match llm (systemMessage, humanMessage text userContext) with
  | .error _ => extract_with_patterns_json text docType
  | .ok response =>
    match parseAIResponse response with
    | .success fm => fm
    | .raised => extract_with_patterns_json text docType
    | .fellThrough => extract_with_patterns_json text docType

/-! ## `extract_from_file` and `extract_data_from_upload`

The text-extraction backends (PyMuPDF / pdfplumber, python-docx,
pandas / openpyxl) are external libraries; they enter the model as
function parameters from an abstract content type `β`. -/

/-- The common tail of `extract_from_file` once text has been extracted:
structured extraction (AI when a model handle is present, else patterns),
then `result["context_dump"] = text`, then optionally
`result["user_context"] = user_context`. -/
def extractStructured (llm : Option ModelHandle) (text docType userContext : PyStr) :
    List (PyStr × Json) :=
  let result :=
    match llm with
    | some l => extract_with_ai l text docType userContext
    | none => extract_with_patterns_json text docType
  let result := dictInsert result (pys "context_dump") (Json.str text)
  if userContext ≠ [] then dictInsert result (pys "user_context") (Json.str userContext)
  else result

/-- `DocumentDataExtractor.extract_from_file`: dispatch on the declared
extension; unsupported extensions yield only an error entry. -/
def extract_from_file {β : Type} (pdfText docxText xlsxText : β → PyStr)
    (llm : Option ModelHandle) (content : β) (fileType docType userContext : PyStr) :
    List (PyStr × Json) :=
  let ftl := pyLower fileType
  if ftl = pys ".pdf" ∨ ftl = pys "pdf" then
    extractStructured llm (pdfText content) docType userContext
  else if ftl = pys ".docx" ∨ ftl = pys "docx" then
    extractStructured llm (docxText content) docType userContext
  else if ftl = pys ".xlsx" ∨ ftl = pys "xlsx" ∨ ftl = pys ".xls" ∨ ftl = pys "xls" then
    extractStructured llm (xlsxText content) docType userContext
  else
    [(pys "error", Json.str (pys "Unsupported file type: " ++ fileType))]

/-- `os.path.splitext(name)[1]`: the extension of the base name, counting
from its last dot, with a leading run of dots not starting an extension. -/
def splitextExt (name : PyStr) : PyStr :=
  let base := (name.reverse.takeWhile (fun c => c ≠ '/')).reverse
  let core := base.dropWhile (fun c => c = '.')
  if core.any (fun c => c = '.') then
    '.' :: (core.reverse.takeWhile (fun c => c ≠ '.')).reverse
  else []

/-- Module-level `extract_data_from_upload`: a missing (falsy) uploaded
file yields the empty dict; otherwise the extension is resolved from the
file name and `extract_from_file` runs. -/
def extract_data_from_upload {β : Type} (pdfText docxText xlsxText : β → PyStr)
    (uploadedFile : Option (PyStr × β)) (docType : PyStr) (llm : Option ModelHandle)
    (userContext : PyStr) : List (PyStr × Json) :=
  match uploadedFile with
  | none => []
  | some (name, content) =>
    let ext := pyLower (splitextExt name)
    extract_from_file pdfText docxText xlsxText llm content ext docType userContext

/-! ## `UnifiedGenerator.generate_all` (src/generators/unified_generator.py)

The five generation tasks run on a thread pool and settle in a
nondeterministic order; the orchestrator is therefore modelled as a
function of the settled sequence — the `(doc_type, outcome)` pairs in the
order `concurrent.futures.as_completed` yields them, where an outcome is
either the task's Python return value or a raised exception's message.
`os.path.exists` enters as a predicate on paths, `datetime.now()` as a
timestamp string. -/

/-- A Python value as returned by a generation task. -/
inductive PyVal where
  | none : PyVal
  | bool : Bool → PyVal
  | int : Int → PyVal
  | str : PyStr → PyVal
  | list : List PyVal → PyVal
  | dict : List (PyStr × PyVal) → PyVal

/-- Python truthiness of a task return value. -/
def pyValTruthy : PyVal → Bool
  | .none => false
  | .bool b => b
  | .int n => n ≠ 0
  | .str s => s ≠ []
  | .list l => !l.isEmpty
  | .dict d => !d.isEmpty

/-- One per-task outcome record appended to `results`: either
`{"type": .., "status": "success", "file": ..}` or
`{"type": .., "status": "error", "error": ..}`. -/
inductive GenOutcome where
  | success : PyStr → PyStr → GenOutcome
  | failed : PyStr → PyStr → GenOutcome

/-- The doc type of an outcome. -/
def GenOutcome.docType : GenOutcome → PyStr
  | .success dt _ => dt
  | .failed dt _ => dt

/-- Whether an outcome has `status == "success"`. -/
def GenOutcome.isSuccess : GenOutcome → Bool
  | .success _ _ => true
  | .failed _ _ => false

/-- The `file` entry of a success outcome. -/
def GenOutcome.file? : GenOutcome → Option PyStr
  | .success _ f => some f
  | .failed _ _ => none

/-- The per-future normalization of `generate_all` (the body of the
`as_completed` loop): a raised task becomes a failed outcome with the
exception message; a plain-string return, or a dict with a `"filepath"`
key, contributes its path; a truthy path that exists on the file system
is a success; everything else is a failed outcome.  `os.path.exists` on a
non-string path raises `TypeError`, which the surrounding handler turns
into a failed outcome as well (integer file-descriptor arguments are not
modelled). -/
def processFuture (fs : PyStr → Bool) (docType : PyStr) (res : Except PyStr PyVal) :
    GenOutcome :=
  match res with
  | .error e => .failed docType e
  | .ok result =>
    let filepath : Option PyVal :=
      match result with
      | .str s => some (.str s)
      | .dict d => dictGet d (pys "filepath")
      | _ => Option.none
    match filepath with
    | some (.str s) =>
      if s ≠ [] then
        if fs s then .success docType s
        else .failed docType (pys "File not created or invalid return type")
      else .failed docType (pys "File not created or invalid return type")
    | some v =>
      if pyValTruthy v then
        .failed docType (pys "TypeError: argument should be a str or an os.PathLike object")
      else .failed docType (pys "File not created or invalid return type")
    | Option.none => .failed docType (pys "File not created or invalid return type")

/-- Python `str.isalnum` restricted to ASCII and Latin-1 letters. -/
def pyIsAlnum (c : Char) : Bool :=
  ('0' ≤ c ∧ c ≤ '9') ∨ ('A' ≤ c ∧ c ≤ 'Z') ∨ ('a' ≤ c ∧ c ≤ 'z')
    ∨ (192 ≤ c.toNat ∧ c.toNat ≤ 255 ∧ c.toNat ≠ 215 ∧ c.toNat ≠ 247)

/-- `os.path.join` for one component (POSIX). -/
def pyPathJoin (dir nm : PyStr) : PyStr :=
  if nm.head? = some '/' then nm
  else if dir = [] then nm
  else if dir.getLast? = some '/' then dir ++ nm
  else dir ++ '/' :: nm

/-- `UnifiedGenerator._create_zip`'s archive path:
`output_dir / f"MGA_Documentos_{safe_name}_{timestamp}.zip"` with the
project name sanitized to alphanumerics, spaces, hyphens and underscores
and stripped.  (The archive body — each member stored under its base
name — has no bearing on the verified claims.) -/
def createZipPath (outputDir projectName timestamp : PyStr) : PyStr :=
  let safeName := pyStrip (projectName.filter
    (fun c => pyIsAlnum c ∨ c = ' ' ∨ c = '-' ∨ c = '_'))
  pyPathJoin outputDir (pys "MGA_Documentos_" ++ safeName ++ '_' :: (timestamp ++ pys ".zip"))

/-- One iteration of the `as_completed` loop: append the normalized
outcome to `results` and, in the success branch, the path to
`files_to_zip`. -/
def settleStep (fs : PyStr → Bool) (acc : List GenOutcome × List PyStr)
    (dtres : PyStr × Except PyStr PyVal) : List GenOutcome × List PyStr :=
  let oc := processFuture fs dtres.1 dtres.2
  match oc with
  | .success _ f => (acc.1 ++ [oc], acc.2 ++ [f])
  | .failed _ _ => (acc.1 ++ [oc], acc.2)

/-- The dict returned by `generate_all`.  In the LLM-initialization
failure branch the source returns a dict without a `zip_file` key; that
absent entry is modelled as `zipFile = none`. -/
structure UnifiedResult where
  success : Bool
  results : List GenOutcome
  zipFile : Option PyStr
  errMsg : Option PyStr

/-- `UnifiedGenerator.generate_all`: short-circuit if the LLM cannot be
initialized; otherwise normalize every settled task, collect the paths of
the successful ones, build the archive path iff that collection is
non-empty, and report success iff it is non-empty. -/
def generate_all (llmInit : Except PyStr Unit)
    (settled : List (PyStr × Except PyStr PyVal)) (fs : PyStr → Bool)
    (data : List (PyStr × PyStr)) (outputDir timestamp : PyStr) : UnifiedResult :=
  match llmInit with
  | .error e => ⟨false, [], Option.none, some (pys "LLM init failed: " ++ e)⟩
  | .ok _ =>
    let rz := settled.foldl (settleStep fs) ([], [])
    let results := rz.1
    let filesToZip := rz.2
    let zipPath :=
      if filesToZip ≠ [] then
        some (createZipPath outputDir ((dictGet data (pys "municipio")).getD (pys "proyecto"))
          timestamp)
      else Option.none
    ⟨decide (0 < filesToZip.length), results, zipPath, Option.none⟩

/-! ## Claims -/

/-- C1: for every text, doc_type and user_context, if the model
collaborator raises on every call, `_extract_with_ai` returns exactly the
field map `_extract_with_patterns` returns on the same `(text, doc_type)`
(each pattern-extracted string value appearing as a string value of the
heterogeneous result). -/
theorem spec_C1 (e : PyStr × PyStr → PyStr) (text docType userContext : PyStr) :
    extract_with_ai (fun p => Except.error (e p)) text docType userContext
      = extract_with_patterns_json text docType := rfl

/-- C6: text longer than 15000 characters is reduced to the first 6000
characters, a 6000-character window centered on the midpoint, and the
final 3000 characters, joined with section markers; text of length at
most 15000 is used whole. -/
theorem spec_C6 (text : PyStr) :
    textToAnalyze text =
      if 15000 < text.length then
        text.take 6000 ++ pys "\n\n[...SECCIÓN INTERMEDIA...]\n\n"
          ++ (text.drop (text.length / 2 - 3000)).take 6000
          ++ pys "\n\n[...SECCIÓN FINAL...]\n\n" ++ text.drop (text.length - 3000)
      else text := by
  simp [textToAnalyze]

/-- C10: `extract_data_from_upload` with a missing uploaded file returns
the empty dict — no error entry and no context dump — for every doc_type,
model handle and user context. -/
theorem spec_C10 {β : Type} (pdfText docxText xlsxText : β → PyStr)
    (docType : PyStr) (llm : Option ModelHandle) (userContext : PyStr) :
    extract_data_from_upload pdfText docxText xlsxText Option.none docType llm userContext
      = [] := rfl

/-- C8: for every file whose declared extension is not one of the
supported spellings, `extract_from_file` returns a dict holding only the
`error` entry, independently of the text-extraction backends, the model
handle and the content — so no text extraction takes place. -/
theorem spec_C8 {β : Type} (pdfText docxText xlsxText : β → PyStr)
    (llm : Option ModelHandle) (content : β) (fileType docType userContext : PyStr)
    (h : pyLower fileType ∉ [pys ".pdf", pys "pdf", pys ".docx", pys "docx",
      pys ".xlsx", pys "xlsx", pys ".xls", pys "xls"]) :
    extract_from_file pdfText docxText xlsxText llm content fileType docType userContext
      = [(pys "error", Json.str (pys "Unsupported file type: " ++ fileType))] := by
  simp only [List.mem_cons, List.not_mem_nil, or_false, not_or] at h
  obtain ⟨h1, h2, h3, h4, h5, h6, h7, h8⟩ := h
  simp [extract_from_file, h1, h2, h3, h4, h5, h6, h7, h8]

/-- Witness for C8 at the concrete extension `.txt`. -/
theorem spec_C8_witness :
    extract_from_file (fun _ : Unit => ([] : PyStr)) (fun _ => []) (fun _ => [])
      Option.none () (pys ".txt") (pys "dts") []
      = [(pys "error", Json.str (pys "Unsupported file type: " ++ pys ".txt"))] :=
  spec_C8 _ _ _ _ _ _ _ _ (by decide)

/-- C2 fails as stated: on this response the fenced JSON block extracts
`true`, which is valid JSON, yet the loop's result is determined by the
brace-delimited span (tried first in the source), not by the fenced
block — under the claimed order the parse would instead abort on the
non-object document `true`. -/
theorem spec_C2_counterexample :
    parseAIResponse (pys "\x7b\"note\": \"```json true ```\"\x7d")
        = ParseOutcome.success [(pys "note", Json.str (pys "```json true ```"))]
    ∧ fencedJsonBlock (pys "\x7b\"note\": \"```json true ```\"\x7d") = some (pys "true")
    ∧ jsonLoads (pys "true") = some (Json.bool true)
    ∧ runPatterns [fencedJsonBlock, fencedGenericBlock, braceSpan]
        (pys "\x7b\"note\": \"```json true ```\"\x7d") = ParseOutcome.raised :=
  ⟨rfl, rfl, rfl, rfl⟩

/-- C2 amended: the recovery strategies are attempted in this order —
(1) any brace-delimited span, (2) a fenced JSON code block, (3) a generic
fenced code block; the first pattern whose extracted span parses as valid
JSON determines the result (an object yields the filtered field map, any
other document aborts parsing). -/
theorem spec_C2_amended (response : PyStr) :
    parseAIResponse response =
      match braceSpan response with
      | some js =>
        (match jsonLoads js with
         | some (Json.obj d) => ParseOutcome.success (filterExtracted d)
         | some _ => ParseOutcome.raised
         | none => runPatterns [fencedJsonBlock, fencedGenericBlock] response)
      | none => runPatterns [fencedJsonBlock, fencedGenericBlock] response := by
  cases hb : braceSpan response with
  | none => simp [parseAIResponse, jsonPatterns, runPatterns, hb]
  | some js =>
    cases hj : jsonLoads js with
    | none => simp [parseAIResponse, jsonPatterns, runPatterns, hb, hj]
    | some v => cases v <;> simp [parseAIResponse, jsonPatterns, runPatterns, hb, hj]

/-- C7 fails as stated: the parsed value `0` is neither `null`, nor the
string `"null"`, nor blank after trimming, yet the comprehension's
truthiness test drops it from the result. -/
theorem spec_C7_counterexample :
    jsonLoads (pys "\x7b\"duracion\": 0\x7d")
        = some (Json.obj [(pys "duracion", Json.num 0)])
    ∧ Json.num 0 ≠ Json.null
    ∧ isNullLiteral (Json.num 0) = false
    ∧ pyStrip (pyStrJson (Json.num 0)) ≠ []
    ∧ parseAIResponse (pys "\x7b\"duracion\": 0\x7d") = ParseOutcome.success [] := by
  refine ⟨rfl, fun h => Json.noConfusion h, rfl, ?_, rfl⟩
  have h : pyStrJson (Json.num 0) = (toString (0 : Int)).toList := by
    simp [pyStrJson, pyReprJson]
  rw [h]
  decide

/-- C7 amended: a field of a successfully parsed JSON object is kept —
with its parsed value — exactly when that value is truthy in the Python
sense (so also `false`, `0` and empty containers are dropped, not only
`null` and the blank string), is not the literal string `"null"`, and is
not blank after trimming. -/
theorem spec_C7_amended (d : List (PyStr × Json)) (k : PyStr) (v : Json) :
    (k, v) ∈ filterExtracted d ↔
      ((k, v) ∈ d ∧ pyTruthy v = true ∧ isNullLiteral v = false
        ∧ pyStrip (pyStrJson v) ≠ []) := by
  simp [filterExtracted, List.mem_filter, Bool.and_eq_true, Bool.not_eq_true',
    List.isEmpty_iff, and_assoc]

/-- Witness for the amended C7 at a concrete kept field. -/
theorem spec_C7_amended_witness :
    (pys "municipio", Json.str (pys "San Pablo"))
      ∈ filterExtracted [(pys "municipio", Json.str (pys "San Pablo"))] :=
  (spec_C7_amended _ _ _).mpr ⟨by simp, rfl, rfl, by decide⟩

/-! ## Claims about the generation orchestrator -/

/-- The normalized output path of a task return value: a plain string
return is itself the path; a dict return contributes its `filepath` entry
when that entry is a string; every other shape normalizes to no path. -/
def pathOfRet : PyVal → Option PyStr
  | .str s => some s
  | .dict d =>
    match dictGet d (pys "filepath") with
    | some (.str s) => some s
    | _ => Option.none
  | _ => Option.none

/-- Unrolling the `as_completed` loop: the accumulated `results` are the
normalized outcomes in settlement order, and `files_to_zip` collects
exactly the success outcomes' paths. -/
theorem foldl_settleStep (fs : PyStr → Bool) (settled : List (PyStr × Except PyStr PyVal)) :
    ∀ acc : List GenOutcome × List PyStr,
      (settled.foldl (settleStep fs) acc).1
          = acc.1 ++ settled.map (fun p => processFuture fs p.1 p.2)
      ∧ (settled.foldl (settleStep fs) acc).2
          = acc.2 ++ (settled.map (fun p => processFuture fs p.1 p.2)).filterMap
              GenOutcome.file? := by
  induction settled with
  | nil => intro acc; simp
  | cons p rest ih =>
    intro acc
    simp only [List.foldl_cons, List.map_cons, List.filterMap_cons]
    cases hoc : processFuture fs p.1 p.2 with
    | success dt f =>
      have hs : settleStep fs acc p = (acc.1 ++ [GenOutcome.success dt f], acc.2 ++ [f]) := by
        simp [settleStep, hoc]
      rw [hs]
      obtain ⟨ih1, ih2⟩ := ih (acc.1 ++ [GenOutcome.success dt f], acc.2 ++ [f])
      rw [ih1, ih2]
      simp [GenOutcome.file?]
    | failed dt e =>
      have hs : settleStep fs acc p = (acc.1 ++ [GenOutcome.failed dt e], acc.2) := by
        simp [settleStep, hoc]
      rw [hs]
      obtain ⟨ih1, ih2⟩ := ih (acc.1 ++ [GenOutcome.failed dt e], acc.2)
      rw [ih1, ih2]
      simp [GenOutcome.file?]

/-- An outcome yields no archive member exactly when it failed. -/
theorem file?_eq_none_iff (oc : GenOutcome) :
    GenOutcome.file? oc = Option.none ↔ oc.isSuccess = false := by
  cases oc <;> simp [GenOutcome.file?, GenOutcome.isSuccess]

/-- A non-empty path component keeps `os.path.join` non-empty. -/
theorem pyPathJoin_ne_nil (dir nm : PyStr) (h : nm ≠ []) : pyPathJoin dir nm ≠ [] := by
  unfold pyPathJoin
  split
  · exact h
  · split
    · exact h
    · split <;> simp [List.append_eq_nil, h]

/-- The archive path is never the empty string. -/
theorem createZipPath_ne_nil (outputDir projectName timestamp : PyStr) :
    createZipPath outputDir projectName timestamp ≠ [] := by
  unfold createZipPath
  apply pyPathJoin_ne_nil
  intro h
  exact absurd (List.append_eq_nil.mp (List.append_eq_nil.mp h).1).1 (by decide)
/-- C3: `generate_all` reports overall success exactly when at least one
outcome has status success; it returns a (non-empty) archive path exactly
when at least one outcome succeeded; with zero successes the archive path
is `None` and overall success is false. -/
theorem spec_C3 (llmInit : Except PyStr Unit) (settled : List (PyStr × Except PyStr PyVal))
    (fs : PyStr → Bool) (data : List (PyStr × PyStr)) (outputDir timestamp : PyStr) :
    ((generate_all llmInit settled fs data outputDir timestamp).success = true
        ↔ ∃ oc ∈ (generate_all llmInit settled fs data outputDir timestamp).results,
            oc.isSuccess = true)
    ∧ ((∃ p, (generate_all llmInit settled fs data outputDir timestamp).zipFile = some p
              ∧ p ≠ [])
        ↔ ∃ oc ∈ (generate_all llmInit settled fs data outputDir timestamp).results,
            oc.isSuccess = true)
    ∧ ((∀ oc ∈ (generate_all llmInit settled fs data outputDir timestamp).results,
          oc.isSuccess = false)
        → (generate_all llmInit settled fs data outputDir timestamp).zipFile = Option.none
          ∧ (generate_all llmInit settled fs data outputDir timestamp).success = false) := by
  cases llmInit with
  | error e => simp [generate_all]
  | ok u =>
    obtain ⟨h1, h2⟩ := foldl_settleStep fs settled ([], [])
    set S := settled.map (fun p => processFuture fs p.1 p.2) with hS
    set F := S.filterMap GenOutcome.file? with hFdef
    set Z := createZipPath outputDir ((dictGet data (pys "municipio")).getD (pys "proyecto"))
      timestamp with hZ
    have hr : (generate_all (Except.ok u) settled fs data outputDir timestamp).results = S := by
      simp only [generate_all]
      rw [h1]
      simp
    have hs : (generate_all (Except.ok u) settled fs data outputDir timestamp).success
        = decide (0 < F.length) := by
      simp only [generate_all]
      rw [h2]
      simp
    have hz : (generate_all (Except.ok u) settled fs data outputDir timestamp).zipFile
        = if F ≠ [] then some Z else Option.none := by
      simp only [generate_all]
      rw [h2]
      simp
    have hF : (F = []) ↔ ∀ oc ∈ S, oc.isSuccess = false := by
      rw [hFdef, List.filterMap_eq_nil_iff]
      constructor
      · intro h oc hm
        exact (file?_eq_none_iff oc).mp (h oc hm)
      · intro h oc hm
        exact (file?_eq_none_iff oc).mpr (h oc hm)
    have hkey : (∃ oc ∈ S, oc.isSuccess = true) ↔ F ≠ [] := by
      rw [Ne, hF]
      constructor
      · rintro ⟨oc, hm, hsuc⟩ hall
        rw [hall oc hm] at hsuc
        exact Bool.noConfusion hsuc
      · intro h
        by_contra hno
        push_neg at hno
        exact h (fun oc hm => by
          cases hb : oc.isSuccess with
          | false => rfl
          | true => exact absurd hb (hno oc hm))
    refine ⟨?_, ?_, ?_⟩
    · rw [hs, hr, hkey]
      simp only [decide_eq_true_eq, List.length_pos]
    · rw [hz, hr, hkey]
      by_cases hF' : F = []
      · rw [if_neg (by simp [hF'])]
        constructor
        · rintro ⟨p, hp, _⟩
          exact Option.noConfusion hp
        · intro hne
          exact absurd hF' hne
      · rw [if_pos hF']
        constructor
        · intro _
          exact hF'
        · intro _
          exact ⟨Z, rfl, createZipPath_ne_nil _ _ _⟩
    · intro hall
      rw [hr] at hall
      have hnil := hF.mpr hall
      constructor
      · rw [hz, if_neg (by simp [hnil])]
      · rw [hs, hnil]
        simp

/-- Witness for C3 at a settled batch whose single task raised. -/
theorem spec_C3_witness :
    (generate_all (Except.ok ()) [(pys "dts", Except.error (pys "boom"))]
        (fun _ => false) [] [] []).zipFile = Option.none
    ∧ (generate_all (Except.ok ()) [(pys "dts", Except.error (pys "boom"))]
        (fun _ => false) [] [] []).success = false :=
  (spec_C3 (Except.ok ()) [(pys "dts", Except.error (pys "boom"))]
    (fun _ => false) [] [] []).2.2 (by decide)

/-- C4: the settled outcomes are normalized element-wise (each task's
outcome depends only on its own result, leaving siblings unaffected); a
raised task yields a failed outcome carrying the exception message; a
plain string return naming an existing file, or a dict whose `filepath`
entry names an existing file, yields a success outcome with that path;
any return with no existing normalized path yields a failed outcome with
an error message.  (`fs [] = false` is the `os.path.exists("") == False`
property of the file system.) -/
theorem spec_C4 (fs : PyStr → Bool) (hfs : fs [] = false)
    (settled : List (PyStr × Except PyStr PyVal)) (data : List (PyStr × PyStr))
    (outputDir timestamp dt : PyStr) :
    (generate_all (Except.ok ()) settled fs data outputDir timestamp).results
        = settled.map (fun p => processFuture fs p.1 p.2)
    ∧ (∀ e, processFuture fs dt (Except.error e) = GenOutcome.failed dt e)
    ∧ (∀ s, fs s = true →
        processFuture fs dt (Except.ok (PyVal.str s)) = GenOutcome.success dt s)
    ∧ (∀ d s, dictGet d (pys "filepath") = some (PyVal.str s) → fs s = true →
        processFuture fs dt (Except.ok (PyVal.dict d)) = GenOutcome.success dt s)
    ∧ (∀ res : PyVal, (∀ s, pathOfRet res = some s → fs s = false) →
        ∃ msg, processFuture fs dt (Except.ok res) = GenOutcome.failed dt msg) := by
  refine ⟨?_, fun e => rfl, ?_, ?_, ?_⟩
  · obtain ⟨h1, _⟩ := foldl_settleStep fs settled ([], [])
    simp only [generate_all]
    rw [h1]
    simp
  · intro s hs
    have hne : s ≠ [] := by
      intro h
      rw [h, hfs] at hs
      exact Bool.noConfusion hs
    simp [processFuture, hne, hs]
  · intro d s hd hs
    have hne : s ≠ [] := by
      intro h
      rw [h, hfs] at hs
      exact Bool.noConfusion hs
    simp [processFuture, hd, hne, hs]
  · intro res h
    cases res with
    | str s =>
      have hfalse : fs s = false := h s rfl
      by_cases hsnil : s = []
      · exact ⟨pys "File not created or invalid return type",
          by simp [processFuture, hsnil]⟩
      · exact ⟨pys "File not created or invalid return type",
          by simp [processFuture, hsnil, hfalse]⟩
    | dict d =>
      cases hlook : dictGet d (pys "filepath") with
      | none => exact ⟨pys "File not created or invalid return type",
          by simp [processFuture, hlook]⟩
      | some v =>
        cases v with
        | str s =>
          have hfalse : fs s = false := h s (by simp [pathOfRet, hlook])
          by_cases hsnil : s = []
          · exact ⟨pys "File not created or invalid return type",
              by simp [processFuture, hlook, hsnil]⟩
          · exact ⟨pys "File not created or invalid return type",
              by simp [processFuture, hlook, hsnil, hfalse]⟩
        | none => exact ⟨pys "File not created or invalid return type",
            by simp [processFuture, hlook, pyValTruthy]⟩
        | bool b =>
          cases htv : pyValTruthy (PyVal.bool b) with
          | true => exact ⟨pys "TypeError: argument should be a str or an os.PathLike object",
              by simp [processFuture, hlook, htv]⟩
          | false => exact ⟨pys "File not created or invalid return type",
              by simp [processFuture, hlook, htv]⟩
        | int n =>
          cases htv : pyValTruthy (PyVal.int n) with
          | true => exact ⟨pys "TypeError: argument should be a str or an os.PathLike object",
              by simp [processFuture, hlook, htv]⟩
          | false => exact ⟨pys "File not created or invalid return type",
              by simp [processFuture, hlook, htv]⟩
        | list l =>
          cases htv : pyValTruthy (PyVal.list l) with
          | true => exact ⟨pys "TypeError: argument should be a str or an os.PathLike object",
              by simp [processFuture, hlook, htv]⟩
          | false => exact ⟨pys "File not created or invalid return type",
              by simp [processFuture, hlook, htv]⟩
        | dict d2 =>
          cases htv : pyValTruthy (PyVal.dict d2) with
          | true => exact ⟨pys "TypeError: argument should be a str or an os.PathLike object",
              by simp [processFuture, hlook, htv]⟩
          | false => exact ⟨pys "File not created or invalid return type",
              by simp [processFuture, hlook, htv]⟩
    | none => exact ⟨pys "File not created or invalid return type", rfl⟩
    | bool b => exact ⟨pys "File not created or invalid return type", rfl⟩
    | int n => exact ⟨pys "File not created or invalid return type", rfl⟩
    | list l => exact ⟨pys "File not created or invalid return type", rfl⟩

/-- Witness for C4: a plain-string return whose file exists. -/
theorem spec_C4_witness :
    processFuture (fun s => decide (s = pys "/tmp/out.docx")) (pys "mga_subsidios")
        (Except.ok (PyVal.str (pys "/tmp/out.docx")))
      = GenOutcome.success (pys "mga_subsidios") (pys "/tmp/out.docx") :=
  (spec_C4 (fun s => decide (s = pys "/tmp/out.docx")) (by decide)
    [] [] [] [] (pys "mga_subsidios")).2.2.1 _ (by decide)

/-! ## Claims about pattern extraction (C5, C9) -/

/-- `Char.ofNat` of a valid code point decodes back to it. -/
theorem toNat_ofNat_of_valid {n : Nat} (h : Nat.isValidChar n) :
    (Char.ofNat n).toNat = n := by
  unfold Char.ofNat
  rw [dif_pos h]
  rfl

/-- Python's `str.lower` (as modelled) is idempotent on characters. -/
theorem pyLowerChar_idem (c : Char) : pyLowerChar (pyLowerChar c) = pyLowerChar c := by
  unfold pyLowerChar
  by_cases h1 : 65 ≤ c.toNat ∧ c.toNat ≤ 90
  · rw [if_pos h1]
    have hv : Nat.isValidChar (c.toNat + 32) := Or.inl (by omega)
    have ht : (Char.ofNat (c.toNat + 32)).toNat = c.toNat + 32 := toNat_ofNat_of_valid hv
    rw [ht, if_neg (by omega), if_neg (by omega)]
  · rw [if_neg h1]
    by_cases h2 : 192 ≤ c.toNat ∧ c.toNat ≤ 222 ∧ c.toNat ≠ 215
    · rw [if_pos h2]
      have hv : Nat.isValidChar (c.toNat + 32) := Or.inl (by omega)
      have ht : (Char.ofNat (c.toNat + 32)).toNat = c.toNat + 32 := toNat_ofNat_of_valid hv
      rw [ht, if_neg (by omega), if_neg (by omega)]
    · rw [if_neg h2, if_neg h1, if_neg h2]

/-- Every character of a lower-cased string is a fixed point of
lower-casing. -/
theorem mem_pyLower_fixed {c : Char} {s : PyStr} (h : c ∈ pyLower s) :
    pyLowerChar c = c := by
  obtain ⟨a, _, rfl⟩ := List.mem_map.mp h
  exact pyLowerChar_idem a

/-- A string all of whose characters are fixed by lower-casing is its own
lower-casing. -/
theorem pyLower_fixed {v : PyStr} (h : ∀ c ∈ v, pyLowerChar c = c) :
    pyLower v = v := by
  induction v with
  | nil => rfl
  | cons a rest ih =>
    simp only [pyLower, List.map_cons] at *
    rw [h a (by simp), ih (fun c hc => h c (by simp [hc]))]

/-- A lazy rest-of-line capture draws its characters from the subject. -/
theorem lazyRestOfLine_subset {cs g : PyStr} (h : lazyRestOfLine cs = some g) :
    g ⊆ cs := by
  cases cs with
  | nil => simp [lazyRestOfLine] at h
  | cons a rest =>
    simp only [lazyRestOfLine] at h
    split at h
    · exact absurd h (by simp)
    · obtain rfl := Option.some.inj h
      exact (List.takeWhile_sublist _).subset

/-- `wsBack` captures draw from the subject. -/
theorem wsBack_subset {cs : PyStr} : ∀ {k : Nat} {g : PyStr},
    wsBack cs k = some g → g ⊆ cs := by
  intro k
  induction k with
  | zero => exact fun h => lazyRestOfLine_subset h
  | succ k ih =>
    intro g h
    rw [wsBack] at h
    split at h
    · rename_i g' hl
      obtain rfl := Option.some.inj h
      exact (lazyRestOfLine_subset hl).trans (List.drop_subset _ _)
    · exact ih h

/-- `wsStarThenRest` captures draw from the subject. -/
theorem wsStarThenRest_subset {cs g : PyStr} (h : wsStarThenRest cs = some g) :
    g ⊆ cs :=
  wsBack_subset h

/-- `sepBranch` captures draw from the subject. -/
theorem sepBranch_subset {cs g : PyStr} (h : sepBranch cs = some g) : g ⊆ cs := by
  cases cs with
  | nil => simp [sepBranch] at h
  | cons a rest =>
    simp only [sepBranch] at h
    split at h
    · split at h
      · rename_i g' hl
        obtain rfl := Option.some.inj h
        exact (wsStarThenRest_subset hl).trans (List.subset_cons_self _ _)
      · exact wsStarThenRest_subset h
    · exact wsStarThenRest_subset h

/-- `outerWsBack` captures draw from the subject. -/
theorem outerWsBack_subset {cs : PyStr} : ∀ {k : Nat} {g : PyStr},
    outerWsBack cs k = some g → g ⊆ cs := by
  intro k
  induction k with
  | zero => exact fun h => sepBranch_subset h
  | succ k ih =>
    intro g h
    rw [outerWsBack] at h
    split at h
    · rename_i g' hl
      obtain rfl := Option.some.inj h
      exact (sepBranch_subset hl).trans (List.drop_subset _ _)
    · exact ih h

/-- `matchTail` captures draw from the subject. -/
theorem matchTail_subset {cs g : PyStr} (h : matchTail cs = some g) : g ⊆ cs :=
  outerWsBack_subset h

/-- A keyword-search capture draws its characters from the subject. -/
theorem reSearchKw_subset {kw : PyStr} : ∀ {t g : PyStr},
    reSearchKw kw t = some g → g ⊆ t := by
  intro t
  induction t with
  | nil =>
    intro g h
    simp only [reSearchKw] at h
    split at h
    · exact matchTail_subset h
    · exact absurd h (by simp)
  | cons a rest ih =>
    intro g h
    simp only [reSearchKw] at h
    split at h
    · split at h
      · rename_i g' hl
        obtain rfl := Option.some.inj h
        exact (matchTail_subset hl).trans (List.drop_subset _ _)
      · exact (ih h).trans (List.subset_cons_self _ _)
    · exact (ih h).trans (List.subset_cons_self _ _)

/-- Stripping preserves the character pool. -/
theorem pyStrip_subset (s : PyStr) : pyStrip s ⊆ s := by
  intro c hc
  unfold pyStrip at hc
  rw [List.mem_reverse] at hc
  have hc2 := (List.dropWhile_sublist _).subset hc
  rw [List.mem_reverse] at hc2
  exact (List.dropWhile_sublist _).subset hc2

/-- Cleanup preserves the character pool. -/
theorem cleanCapture_subset (g : PyStr) : cleanCapture g ⊆ g :=
  ((List.dropWhile_sublist _).subset).trans (pyStrip_subset g)

/-- A value stored by the keyword loop draws its characters from the
(lower-cased) subject. -/
theorem tryKeywords_subset {tl : PyStr} : ∀ {kws : List PyStr} {v : PyStr},
    tryKeywords kws tl = some v → v ⊆ tl := by
  intro kws
  induction kws with
  | nil => intro v h; exact absurd h (by simp [tryKeywords])
  | cons kw rest ih =>
    intro v h
    simp only [tryKeywords] at h
    split at h
    · rename_i g hg
      split at h
      · obtain rfl := Option.some.inj h
        exact ((List.take_subset _ _).trans (cleanCapture_subset g)).trans
          (reSearchKw_subset hg)
      · exact ih h
    · exact ih h

/-- A value stored by the keyword loop is between 2 and 500 characters
long. -/
theorem tryKeywords_length {tl : PyStr} : ∀ {kws : List PyStr} {v : PyStr},
    tryKeywords kws tl = some v → v.length ≤ 500 ∧ 2 ≤ v.length := by
  intro kws
  induction kws with
  | nil => intro v h; exact absurd h (by simp [tryKeywords])
  | cons kw rest ih =>
    intro v h
    simp only [tryKeywords] at h
    split at h
    · rename_i g hg
      split at h
      · rename_i hc
        obtain rfl := Option.some.inj h
        simp only [List.length_take]
        omega
      · exact ih h
    · exact ih h

/-- Membership after a dict insertion: the inserted pair or an original
entry. -/
theorem mem_dictInsert {α : Type} {l : List (PyStr × α)} {k : PyStr} {v : α}
    {x : PyStr × α} (h : x ∈ dictInsert l k v) : x = (k, v) ∨ x ∈ l := by
  induction l with
  | nil =>
    simp only [dictInsert, List.mem_singleton] at h
    exact Or.inl h
  | cons p rest ih =>
    simp only [dictInsert] at h
    split at h
    · rename_i hk
      rcases List.mem_cons.mp h with h1 | h1
      · exact Or.inl (by rw [h1, hk])
      · exact Or.inr (List.mem_cons_of_mem _ h1)
    · rcases List.mem_cons.mp h with h1 | h1
      · exact Or.inr (by rw [h1]; exact List.mem_cons_self _ _)
      · rcases ih h1 with h2 | h2
        · exact Or.inl h2
        · exact Or.inr (List.mem_cons_of_mem _ h2)

/-- Looking up the freshly inserted key. -/
theorem dictGet_insert_self {α : Type} (l : List (PyStr × α)) (k : PyStr) (v : α) :
    dictGet (dictInsert l k v) k = some v := by
  induction l with
  | nil => simp [dictInsert, dictGet]
  | cons p rest ih =>
    simp only [dictInsert]
    split
    · rename_i hk
      simp [dictGet, hk]
    · rename_i hk
      simp [dictGet, hk, ih]

/-- Insertion under a different key does not change a lookup. -/
theorem dictGet_insert_ne {α : Type} (l : List (PyStr × α)) (k k' : PyStr) (v : α)
    (h : k ≠ k') : dictGet (dictInsert l k v) k' = dictGet l k' := by
  induction l with
  | nil => simp [dictInsert, dictGet, h]
  | cons p rest ih =>
    simp only [dictInsert]
    split
    · rename_i hk
      simp only [dictGet]
      rw [hk, if_neg h, if_neg h]
    · simp only [dictGet, ih]

/-- Every entry of the pattern-extraction fold is an original accumulator
entry or a value produced by the keyword loop of some field. -/
theorem foldl_patterns_mem {tl : PyStr} :
    ∀ (ms : List (PyStr × List PyStr)) (acc : List (PyStr × PyStr)) (x : PyStr × PyStr),
      x ∈ ms.foldl (patternsStep tl) acc →
      x ∈ acc ∨ ∃ fk ∈ ms, tryKeywords fk.2 tl = some x.2 := by
  intro ms
  induction ms with
  | nil => intro acc x h; exact Or.inl h
  | cons fk rest ih =>
    intro acc x h
    rcases ih (patternsStep tl acc fk) x h with h1 | h1
    · unfold patternsStep at h1
      split at h1
      · rename_i w hw
        rcases mem_dictInsert h1 with h2 | h2
        · refine Or.inr ⟨fk, List.mem_cons_self _ _, ?_⟩
          rw [h2]
          exact hw
        · exact Or.inl h2
      · exact Or.inl h1
    · obtain ⟨fk', hm, hv⟩ := h1
      exact Or.inr ⟨fk', List.mem_cons_of_mem _ hm, hv⟩

/-- A key outside the remaining fields is untouched by the fold. -/
theorem foldl_patterns_get_not_mem {tl : PyStr} :
    ∀ (ms : List (PyStr × List PyStr)) (acc : List (PyStr × PyStr)) (f : PyStr),
      f ∉ ms.map Prod.fst →
      dictGet (ms.foldl (patternsStep tl) acc) f = dictGet acc f := by
  intro ms
  induction ms with
  | nil => intro acc f _; rfl
  | cons fk rest ih =>
    intro acc f hf
    simp only [List.map_cons, List.mem_cons, not_or] at hf
    obtain ⟨hne, hrest⟩ := hf
    rw [List.foldl_cons, ih (patternsStep tl acc fk) f hrest]
    unfold patternsStep
    split
    · exact dictGet_insert_ne acc fk.1 f _ (fun h => hne h.symm)
    · rfl

/-- With pairwise-distinct field names, the value the extractor stores
for a field is exactly what its own keyword loop produced. -/
theorem foldl_patterns_get {tl : PyStr} :
    ∀ (ms : List (PyStr × List PyStr)) (acc : List (PyStr × PyStr)) (f : PyStr)
      (kws : List PyStr), (ms.map Prod.fst).Nodup → (f, kws) ∈ ms →
      dictGet (ms.foldl (patternsStep tl) acc) f =
        match tryKeywords kws tl with
        | some w => some w
        | none => dictGet acc f := by
  intro ms
  induction ms with
  | nil => intro acc f kws _ hmem; exact absurd hmem (List.not_mem_nil _)
  | cons fk rest ih =>
    intro acc f kws hnd hmem
    rw [List.map_cons, List.nodup_cons] at hnd
    obtain ⟨hhead, hrest⟩ := hnd
    rw [List.foldl_cons]
    rcases List.mem_cons.mp hmem with h1 | h1
    · subst h1
      rw [foldl_patterns_get_not_mem rest (patternsStep tl acc (f, kws)) f hhead]
      unfold patternsStep
      cases htk : tryKeywords kws tl with
      | some w => simp only [htk, dictGet_insert_self]
      | none => simp only [htk]
    · have hfkeys : f ∈ rest.map Prod.fst :=
        List.mem_map.mpr ⟨(f, kws), h1, rfl⟩
      have hne : fk.1 ≠ f := fun h => hhead (h ▸ hfkeys)
      have hrec := ih (patternsStep tl acc fk) f kws hrest h1
      rw [hrec]
      cases htk : tryKeywords kws tl with
      | some w => simp only [htk]
      | none =>
        simp only [htk]
        unfold patternsStep
        cases htk2 : tryKeywords fk.2 tl with
        | some w2 => simp only [htk2]; exact dictGet_insert_ne acc fk.1 f w2 hne
        | none => simp only [htk2]

/-- Field names are pairwise distinct in every keyword table. -/
theorem fieldMappings_keys_nodup (docType : PyStr) :
    ((fieldMappingsGet docType).map Prod.fst).Nodup := by
  unfold fieldMappingsGet
  split
  · decide
  · split
    · decide
    · split
      · decide
      · split
        · decide
        · split
          · decide
          · decide

/-- The keyword loop equals first-match-wins over the keyword list: the
first keyword whose (cleaned) capture is valid provides the value, which
is then truncated to 500 characters. -/
theorem tryKeywords_eq_findSome (kws : List PyStr) (tl : PyStr) :
    tryKeywords kws tl =
      (kws.findSome? (fun kw =>
        (reSearchKw kw tl).bind (fun g =>
          if cleanCapture g ≠ [] ∧ 1 < (cleanCapture g).length then some (cleanCapture g)
          else none))).map (fun w => w.take 500) := by
  induction kws with
  | nil => rfl
  | cons kw rest ih =>
    rw [tryKeywords, List.findSome?_cons]
    cases hg : reSearchKw kw tl with
    | none => simpa using ih
    | some g =>
      simp only [Option.some_bind]
      by_cases hc : cleanCapture g ≠ [] ∧ 1 < (cleanCapture g).length
      · simp [hc]
      · simp only [if_neg hc]
        simpa using ih

/-- C5: every value the pattern extractor stores for a field is the
500-character truncation of the value captured by the first keyword (in
declaration order) whose match yields, after trimming and stripping
leading separator noise, a non-empty value of at least 2 characters; in
particular no field aggregates values of several keywords, and every
stored value has between 2 and 500 characters. -/
theorem spec_C5 (text docType field : PyStr) (keywords : List PyStr) (v : PyStr)
    (hmem : (field, keywords) ∈ fieldMappingsGet docType)
    (hlook : dictGet (extract_with_patterns text docType) field = some v) :
    ((keywords.findSome? (fun kw =>
        (reSearchKw kw (pyLower text)).bind (fun g =>
          if cleanCapture g ≠ [] ∧ 1 < (cleanCapture g).length then some (cleanCapture g)
          else none))).map (fun w => w.take 500) = some v)
    ∧ v.length ≤ 500 ∧ 2 ≤ v.length := by
  have hnd := fieldMappings_keys_nodup docType
  have hch := @foldl_patterns_get (pyLower text) (fieldMappingsGet docType) []
    field keywords hnd hmem
  rw [extract_with_patterns] at hlook
  rw [hch] at hlook
  cases htk : tryKeywords keywords (pyLower text) with
  | none =>
    rw [htk] at hlook
    exact absurd hlook (by simp [dictGet])
  | some w =>
    rw [htk] at hlook
    obtain rfl := Option.some.inj hlook
    refine ⟨?_, tryKeywords_length htk⟩
    rw [← tryKeywords_eq_findSome]
    exact htk

/-- Witness for C5 on a concrete document line. -/
theorem spec_C5_witness :
    (pys "san pablo").length ≤ 500 ∧ 2 ≤ (pys "san pablo").length :=
  (spec_C5 (pys "Municipio: San Pablo") (pys "dts") (pys "municipio")
    [pys "municipio", pys "ciudad"] (pys "san pablo") (by decide) (by decide)).2

/-- C9: every value stored by pattern extraction equals its own
lower-casing — matching and capture run over the lower-cased text, so the
original casing of the source document is not preserved. -/
theorem spec_C9 (text docType f v : PyStr)
    (h : (f, v) ∈ extract_with_patterns text docType) : pyLower v = v := by
  rw [extract_with_patterns] at h
  rcases foldl_patterns_mem (fieldMappingsGet docType) [] (f, v) h with h1 | h1
  · exact absurd h1 (List.not_mem_nil _)
  · obtain ⟨fk, _, htk⟩ := h1
    have hsub : v ⊆ pyLower text := tryKeywords_subset htk
    exact pyLower_fixed (fun c hc => mem_pyLower_fixed (hsub hc))

/-- Witness for C9 at a concrete mixed-case document. -/
theorem spec_C9_witness : pyLower (pys "san pablo") = pys "san pablo" :=
  spec_C9 (pys "Municipio: San Pablo") (pys "dts") (pys "municipio")
    (pys "san pablo") (by decide)
